import Mathlib

/-!
Verification development for the xMati studio front-end coordination core:
the cross-tab leader-election mechanism (TabManager) and the WebSocket
connection session manager that it gates.  Every definition below is a
shallow embedding of the corresponding TypeScript source.
-/

namespace TabM

/-- Election messages exchanged on the BroadcastChannel
(`{type, tabId, timestamp}` in the source).  `tabId` is modelled as an
opaque numeric identity, `ts` as the numeric timestamp field. -/
inductive Msg where
  | ping (tabId ts : Nat)
  | pong (tabId ts : Nat)
  | heartbeat (tabId ts : Nat)
  | claim (tabId ts : Nat)
  | activated (tabId ts : Nat)
  | focusRequest
deriving DecidableEq, Repr

/-- State of one TabManager instance in broadcast mode.
`tabTs` is the creation timestamp embedded in the tab id
(`parseInt(this.tabId.split('_')[1])`), `tabUid` the full tab id
(unique per tab).  `evicted` records that `handleDuplicateTab` ran its
body (notice shown, tab close scheduled); `focusCount` counts
`window.focus()` calls. -/
structure Tab where
  tabTs : Nat
  tabUid : Nat
  isActive : Bool
  receivedPong : Bool
  pingResponses : List Nat
  evicted : Bool
  focusCount : Nat
deriving DecidableEq, Repr

/-- `handleDuplicateTab`: returns immediately when the tab is active;
otherwise it requests focus on the existing tab (posting a
`focus_request` message), shows the duplicate-tab notice and schedules
the tab close. -/
def handleDuplicateTab (t : Tab) : Tab × List Msg :=
  if t.isActive then (t, [])
  else ({ t with evicted := true }, [Msg.focusRequest])

/-- `channel.onmessage` switch of `initializeBroadcastChannel`.
`now` stands for `Date.now()`.  The `timestamp &&` JavaScript truthiness
checks are modelled as `ts ≠ 0`. -/
def onMessage (now : Nat) (t : Tab) : Msg → Tab × List Msg
  | .ping _ mts =>
      if t.isActive ∨ (mts ≠ 0 ∧ t.tabTs < mts) then
        (t, [Msg.pong t.tabUid now])
      else (t, [])
  | .pong mid _ =>
      if mid ≠ t.tabUid then
        let t1 := { t with
          receivedPong := true,
          pingResponses :=
            if mid ∈ t.pingResponses then t.pingResponses else mid :: t.pingResponses }
        if ¬ t1.isActive then handleDuplicateTab t1 else (t1, [])
      else (t, [])
  | .heartbeat mid _ =>
      if mid ≠ t.tabUid ∧ ¬ t.isActive then handleDuplicateTab t else (t, [])
  | .focusRequest =>
      if t.isActive then ({ t with focusCount := t.focusCount + 1 }, []) else (t, [])
  | .claim mid mts =>
      if mid ≠ t.tabUid ∧ mts ≠ 0 ∧ t.tabTs > mts then handleDuplicateTab t else (t, [])
  | .activated _ _ => (t, [])

/-- `activateTab`: set `isActive`, `updateHeartbeat` (which in broadcast
mode posts a `heartbeat`), then announce `activated`. -/
def activateTab (now : Nat) (t : Tab) : Tab × List Msg :=
  let t1 := { t with isActive := true }
  (t1, [Msg.heartbeat t1.tabUid now, Msg.activated t1.tabUid now])

/-- The `setTimeout(..., PING_TIMEOUT)` decision body of
`initializeBroadcastChannel`. -/
def pingTimeout (now : Nat) (t : Tab) : Tab × List Msg :=
  if ¬ t.receivedPong ∧ t.pingResponses = [] then activateTab now t
  else if t.receivedPong then
    (if ¬ t.isActive then handleDuplicateTab t else (t, []))
  else (t, [])

/-- A fresh TabManager before any message handling. -/
def mkTab (uid ts : Nat) : Tab :=
  { tabTs := ts, tabUid := uid, isActive := false, receivedPong := false,
    pingResponses := [], evicted := false, focusCount := 0 }

/-- Two-peer broadcast world: tabs `a` and `b`, with `qab` the FIFO queue
of messages posted by `a` and not yet delivered to `b`, and `qba` the
converse. -/
structure World where
  a : Tab
  b : Tab
  qab : List Msg
  qba : List Msg
deriving DecidableEq, Repr

/-- Deliver the next pending message to `b`; `b`'s reactive posts are
appended to its outgoing queue.  No-op when nothing is pending. -/
def deliverToB (now : Nat) (w : World) : World :=
  match w.qab with
  | [] => w
  | m :: rest =>
      let r := onMessage now w.b m
      { w with b := r.1, qab := rest, qba := w.qba ++ r.2 }

/-- Deliver the next pending message to `a`. -/
def deliverToA (now : Nat) (w : World) : World :=
  match w.qba with
  | [] => w
  | m :: rest =>
      let r := onMessage now w.a m
      { w with a := r.1, qba := rest, qab := w.qab ++ r.2 }

/-- Run an interleaving of deliveries (`true` = deliver next to `a`). -/
def runSched (now : Nat) (w : World) : List Bool → World
  | [] => w
  | s :: rest => runSched now (if s then deliverToA now w else deliverToB now w) rest

/-- Initial world: on startup each tab posts its `ping` then its `claim`,
both carrying its own id and creation timestamp. -/
def startWorld (auid ats buid bts : Nat) : World :=
  { a := mkTab auid ats, b := mkTab buid bts,
    qab := [Msg.ping auid ats, Msg.claim auid ats],
    qba := [Msg.ping buid bts, Msg.claim buid bts] }

/-- Fire both PING_TIMEOUT callbacks, in either order
(`aFirst = true` means `a`'s fires first). -/
def fireTimeouts (now : Nat) (aFirst : Bool) (w : World) : World :=
  if aFirst then
    let r := pingTimeout now w.a
    let w1 := { w with a := r.1, qab := w.qab ++ r.2 }
    let r2 := pingTimeout now w1.b
    { w1 with b := r2.1, qba := w1.qba ++ r2.2 }
  else
    let r := pingTimeout now w.b
    let w1 := { w with b := r.1, qba := w.qba ++ r.2 }
    let r2 := pingTimeout now w1.a
    { w1 with a := r2.1, qab := w1.qab ++ r2.2 }

end TabM

namespace TabM

/-- Boolean test: is this message a `pong`? -/
def isPongB : Msg → Bool
  | .pong _ _ => true
  | _ => false

/-- Boolean test: is this message a `ping`? -/
def isPingB : Msg → Bool
  | .ping _ _ => true
  | _ => false

/-- Well-formedness of a message posted by tab `a` (creation stamp `ats`,
identity `auid`) during the election exchange: its pings carry `ats`, its
pongs carry `auid`, and it never posts heartbeats or activation
announcements before a timeout fires. -/
def msgOkAB (ats auid : Nat) : Msg → Bool
  | .ping _ ts => ts == ats
  | .pong pid _ => pid == auid
  | .claim _ _ => true
  | .focusRequest => true
  | .heartbeat _ _ => false
  | .activated _ _ => false

/-- Well-formedness of a message posted by tab `b` during the exchange,
when `b` is not strictly older than `a`: additionally `b` never pongs. -/
def msgOkBA (bts : Nat) : Msg → Bool
  | .ping _ ts => ts == bts
  | .pong _ _ => false
  | .claim _ _ => true
  | .focusRequest => true
  | .heartbeat _ _ => false
  | .activated _ _ => false

/-- Inductive invariant of the two-peer delivery phase, assuming
`ats ≤ bts` (tab `a` at least as old as tab `b`). -/
structure Inv (auid ats buid bts : Nat) (w : World) : Prop where
  auid_eq : w.a.tabUid = auid
  ats_eq : w.a.tabTs = ats
  buid_eq : w.b.tabUid = buid
  bts_eq : w.b.tabTs = bts
  aInactive : w.a.isActive = false
  bInactive : w.b.isActive = false
  aNoPong : w.a.receivedPong = false
  aNoResp : w.a.pingResponses = []
  okAB : ∀ m ∈ w.qab, msgOkAB ats auid m = true
  okBA : ∀ m ∈ w.qba, msgOkBA bts m = true
  strictDisj : ats < bts →
    (w.qba.any isPingB = true ∨ w.qab.any isPongB = true ∨ w.b.receivedPong = true)
  equalCase : ats = bts →
    (w.b.receivedPong = false ∧ w.b.pingResponses = [] ∧ w.qab.any isPongB = false)

theorem inv_start (auid ats buid bts : Nat) :
    Inv auid ats buid bts (startWorld auid ats buid bts) := by
  refine ⟨rfl, rfl, rfl, rfl, rfl, rfl, rfl, rfl, ?_, ?_, ?_, ?_⟩
  · intro m hm
    simp only [startWorld, List.mem_cons, List.not_mem_nil, or_false] at hm
    rcases hm with rfl | rfl <;> simp [msgOkAB]
  · intro m hm
    simp only [startWorld, List.mem_cons, List.not_mem_nil, or_false] at hm
    rcases hm with rfl | rfl <;> simp [msgOkBA]
  · intro _
    exact Or.inl (by simp [startWorld, isPingB])
  · intro _
    refine ⟨rfl, rfl, ?_⟩
    simp [startWorld, isPongB]

end TabM

namespace TabM

/-- Auxiliary step lemma for a delivery to `b` that leaves `b`'s election
core (identity, age, activity, pong bookkeeping) unchanged and emits only
claim-free, ping-free, pong-free traffic. -/
theorem inv_stepB_aux {auid ats buid bts now : Nat} {w : World} {m : Msg} {rest : List Msg}
    (h : Inv auid ats buid bts w) (hq : w.qab = m :: rest)
    {b' : Tab} {out : List Msg}
    (hmsg : onMessage now w.b m = (b', out))
    (huid : b'.tabUid = w.b.tabUid) (hts : b'.tabTs = w.b.tabTs)
    (hact : b'.isActive = w.b.isActive) (hrp : b'.receivedPong = w.b.receivedPong)
    (hpr : b'.pingResponses = w.b.pingResponses)
    (hout : ∀ x ∈ out, msgOkBA bts x = true ∧ isPingB x = false)
    (hnp : isPongB m = false) :
    Inv auid ats buid bts (deliverToB now w) := by
  have hw : deliverToB now w = { w with b := b', qab := rest, qba := w.qba ++ out } := by
    simp only [deliverToB, hq, hmsg]
  rw [hw]
  refine ⟨h.auid_eq, h.ats_eq, ?_, ?_, h.aInactive, ?_, h.aNoPong, h.aNoResp, ?_, ?_, ?_, ?_⟩
  · exact huid.trans h.buid_eq
  · exact hts.trans h.bts_eq
  · exact hact.trans h.bInactive
  · intro x hx
    exact h.okAB x (by rw [hq]; exact List.mem_cons_of_mem _ hx)
  · intro x hx
    rcases List.mem_append.mp hx with hx1 | hx2
    · exact h.okBA x hx1
    · exact (hout x hx2).1
  · intro hlt
    rcases h.strictDisj hlt with h1 | h2 | h3
    · left
      simp only [List.any_append, Bool.or_eq_true]
      exact Or.inl h1
    · right; left
      rw [hq, List.any_cons, hnp, Bool.false_or] at h2
      exact h2
    · right; right
      exact hrp.trans h3
  · intro heq
    obtain ⟨h1, h2, h3⟩ := h.equalCase heq
    rw [hq, List.any_cons, hnp, Bool.false_or] at h3
    exact ⟨hrp.trans h1, hpr.trans h2, h3⟩

/-- Auxiliary step lemma for a delivery to `a` that leaves `a`'s election
core unchanged, consumes a non-ping message and emits only pong-free
traffic. -/
theorem inv_stepA_aux {auid ats buid bts now : Nat} {w : World} {m : Msg} {rest : List Msg}
    (h : Inv auid ats buid bts w) (hq : w.qba = m :: rest)
    {a' : Tab} {out : List Msg}
    (hmsg : onMessage now w.a m = (a', out))
    (huid : a'.tabUid = w.a.tabUid) (hts : a'.tabTs = w.a.tabTs)
    (hact : a'.isActive = w.a.isActive) (hrp : a'.receivedPong = w.a.receivedPong)
    (hpr : a'.pingResponses = w.a.pingResponses)
    (hout : ∀ x ∈ out, msgOkAB ats auid x = true ∧ isPongB x = false)
    (hnpi : isPingB m = false) :
    Inv auid ats buid bts (deliverToA now w) := by
  have hw : deliverToA now w = { w with a := a', qba := rest, qab := w.qab ++ out } := by
    simp only [deliverToA, hq, hmsg]
  rw [hw]
  refine ⟨?_, ?_, h.buid_eq, h.bts_eq, ?_, h.bInactive, ?_, ?_, ?_, ?_, ?_, ?_⟩
  · exact huid.trans h.auid_eq
  · exact hts.trans h.ats_eq
  · exact hact.trans h.aInactive
  · exact hrp.trans h.aNoPong
  · exact hpr.trans h.aNoResp
  · intro x hx
    rcases List.mem_append.mp hx with hx1 | hx2
    · exact h.okAB x hx1
    · exact (hout x hx2).1
  · intro x hx
    exact h.okBA x (by rw [hq]; exact List.mem_cons_of_mem _ hx)
  · intro hlt
    rcases h.strictDisj hlt with h1 | h2 | h3
    · left
      rw [hq, List.any_cons, hnpi, Bool.false_or] at h1
      exact h1
    · right; left
      simp only [List.any_append, Bool.or_eq_true]
      exact Or.inl h2
    · right; right; exact h3
  · intro heq
    obtain ⟨h1, h2, h3⟩ := h.equalCase heq
    refine ⟨h1, h2, ?_⟩
    simp only [List.any_append, Bool.or_eq_false_iff]
    refine ⟨h3, ?_⟩
    rw [List.any_eq_false]
    intro x hx
    simpa using (hout x hx).2

end TabM

namespace TabM

/-- The state update performed by the `pong` branch of
`channel.onmessage` followed by `handleDuplicateTab` on an inactive tab:
record the pong, remember the responder, mark the tab evicted. -/
def pongStep (t : Tab) (mid : Nat) : Tab :=
  { t with receivedPong := true,
           pingResponses := (if mid ∈ t.pingResponses then t.pingResponses else mid :: t.pingResponses),
           evicted := true }

/-- One delivery to `b` preserves the invariant. -/
theorem inv_deliverToB {auid ats buid bts now : Nat} {w : World}
    (hle : ats ≤ bts) (hne : auid ≠ buid)
    (h : Inv auid ats buid bts w) : Inv auid ats buid bts (deliverToB now w) := by
  cases hq : w.qab with
  | nil =>
      have hw : deliverToB now w = w := by simp only [deliverToB, hq]
      rw [hw]; exact h
  | cons m rest =>
    have hok : msgOkAB ats auid m = true := h.okAB m (by rw [hq]; exact List.mem_cons_self _ _)
    cases m with
    | ping pid mts =>
        have hts' : mts = ats := by simpa [msgOkAB] using hok
        have hnotlt : ¬ (bts < ats) := Nat.not_lt.mpr hle
        have hcond : ¬ (w.b.isActive = true ∨ (mts ≠ 0 ∧ w.b.tabTs < mts)) := by
          rintro (habs | ⟨-, habs⟩)
          · rw [h.bInactive] at habs; exact Bool.false_ne_true habs
          · rw [h.bts_eq, hts'] at habs; exact hnotlt habs
        have hmsg : onMessage now w.b (Msg.ping pid mts) = (w.b, []) := by
          simp only [onMessage]
          rw [if_neg hcond]
        exact inv_stepB_aux h hq hmsg rfl rfl rfl rfl rfl (by intro x hx; cases hx)
          (by simp [isPongB])
    | pong pid mts =>
        have hpid : pid = auid := by simpa [msgOkAB] using hok
        have hcond : pid ≠ w.b.tabUid := by
          rw [hpid, h.buid_eq]; exact hne
        have hbact : w.b.isActive = false := h.bInactive
        have hmsg : onMessage now w.b (Msg.pong pid mts) =
            (pongStep w.b pid, [Msg.focusRequest]) := by
          simp only [onMessage]
          rw [if_pos hcond]
          simp only [pongStep, handleDuplicateTab, hbact]
          simp
        have hw : deliverToB now w =
            { w with b := pongStep w.b pid, qab := rest, qba := w.qba ++ [Msg.focusRequest] } := by
          simp only [deliverToB, hq, hmsg]
        rw [hw]
        refine ⟨h.auid_eq, h.ats_eq, h.buid_eq, h.bts_eq, h.aInactive, h.bInactive,
          h.aNoPong, h.aNoResp, ?_, ?_, ?_, ?_⟩
        · intro x hx
          exact h.okAB x (by rw [hq]; exact List.mem_cons_of_mem _ hx)
        · intro x hx
          rcases List.mem_append.mp hx with hx1 | hx2
          · exact h.okBA x hx1
          · simp only [List.mem_singleton] at hx2
            subst hx2; simp [msgOkBA]
        · intro _
          right; right; rfl
        · intro heq
          have h3 := (h.equalCase heq).2.2
          rw [hq, List.any_cons] at h3
          simp [isPongB] at h3
    | heartbeat pid mts => simp [msgOkAB] at hok
    | activated pid mts => simp [msgOkAB] at hok
    | claim pid mts =>
        by_cases hc : pid ≠ w.b.tabUid ∧ mts ≠ 0 ∧ w.b.tabTs > mts
        · have hmsg : onMessage now w.b (Msg.claim pid mts) =
              ({ w.b with evicted := true }, [Msg.focusRequest]) := by
            simp only [onMessage]
            rw [if_pos hc]
            simp [handleDuplicateTab, h.bInactive]
          exact inv_stepB_aux h hq hmsg rfl rfl rfl rfl rfl
            (by intro x hx; simp only [List.mem_singleton] at hx; subst hx
                exact ⟨by simp [msgOkBA], by simp [isPingB]⟩)
            (by simp [isPongB])
        · have hmsg : onMessage now w.b (Msg.claim pid mts) = (w.b, []) := by
            simp only [onMessage]
            rw [if_neg hc]
          exact inv_stepB_aux h hq hmsg rfl rfl rfl rfl rfl (by intro x hx; cases hx)
            (by simp [isPongB])
    | focusRequest =>
        have hmsg : onMessage now w.b Msg.focusRequest = (w.b, []) := by
          simp only [onMessage]
          rw [if_neg (by rw [h.bInactive]; exact Bool.false_ne_true)]
        exact inv_stepB_aux h hq hmsg rfl rfl rfl rfl rfl (by intro x hx; cases hx)
          (by simp [isPongB])

end TabM

namespace TabM

/-- One delivery to `a` preserves the invariant. -/
theorem inv_deliverToA {auid ats buid bts now : Nat} {w : World}
    (hle : ats ≤ bts) (hne : auid ≠ buid)
    (h : Inv auid ats buid bts w) : Inv auid ats buid bts (deliverToA now w) := by
  cases hq : w.qba with
  | nil =>
      have hw : deliverToA now w = w := by simp only [deliverToA, hq]
      rw [hw]; exact h
  | cons m rest =>
    have hok : msgOkBA bts m = true := h.okBA m (by rw [hq]; exact List.mem_cons_self _ _)
    cases m with
    | ping pid mts =>
        have hts' : mts = bts := by simpa [msgOkBA] using hok
        by_cases hlt : ats < bts
        · have hcond : w.a.isActive = true ∨ (mts ≠ 0 ∧ w.a.tabTs < mts) := by
            right
            refine ⟨?_, ?_⟩
            · rw [hts']; omega
            · rw [h.ats_eq, hts']; exact hlt
          have hmsg : onMessage now w.a (Msg.ping pid mts) =
              (w.a, [Msg.pong w.a.tabUid now]) := by
            simp only [onMessage]
            rw [if_pos hcond]
          have hw : deliverToA now w =
              { w with qba := rest, qab := w.qab ++ [Msg.pong w.a.tabUid now] } := by
            simp only [deliverToA, hq, hmsg]
          rw [hw]
          refine ⟨h.auid_eq, h.ats_eq, h.buid_eq, h.bts_eq, h.aInactive, h.bInactive,
            h.aNoPong, h.aNoResp, ?_, ?_, ?_, ?_⟩
          · intro x hx
            rcases List.mem_append.mp hx with hx1 | hx2
            · exact h.okAB x hx1
            · simp only [List.mem_singleton] at hx2
              subst hx2
              simp [msgOkAB, h.auid_eq]
          · intro x hx
            exact h.okBA x (by rw [hq]; exact List.mem_cons_of_mem _ hx)
          · intro _
            right; left
            simp [List.any_append, isPongB]
          · intro heq
            exfalso; omega
        · have heq : ats = bts := Nat.le_antisymm hle (Nat.not_lt.mp hlt)
          have hcond : ¬ (w.a.isActive = true ∨ (mts ≠ 0 ∧ w.a.tabTs < mts)) := by
            rintro (habs | ⟨-, habs⟩)
            · rw [h.aInactive] at habs; exact Bool.false_ne_true habs
            · rw [h.ats_eq, hts'] at habs; exact hlt habs
          have hmsg : onMessage now w.a (Msg.ping pid mts) = (w.a, []) := by
            simp only [onMessage]
            rw [if_neg hcond]
          have hw : deliverToA now w = { w with qba := rest, qab := w.qab ++ [] } := by
            simp only [deliverToA, hq, hmsg]
          rw [hw]
          refine ⟨h.auid_eq, h.ats_eq, h.buid_eq, h.bts_eq, h.aInactive, h.bInactive,
            h.aNoPong, h.aNoResp, ?_, ?_, ?_, ?_⟩
          · intro x hx
            rcases List.mem_append.mp hx with hx1 | hx2
            · exact h.okAB x hx1
            · cases hx2
          · intro x hx
            exact h.okBA x (by rw [hq]; exact List.mem_cons_of_mem _ hx)
          · intro hlt'
            exact absurd hlt' hlt
          · intro heq'
            obtain ⟨h1, h2, h3⟩ := h.equalCase heq'
            refine ⟨h1, h2, ?_⟩
            simpa [List.any_append] using h3
    | pong pid mts => simp [msgOkBA] at hok
    | heartbeat pid mts => simp [msgOkBA] at hok
    | activated pid mts => simp [msgOkBA] at hok
    | claim pid mts =>
        by_cases hc : pid ≠ w.a.tabUid ∧ mts ≠ 0 ∧ w.a.tabTs > mts
        · have hmsg : onMessage now w.a (Msg.claim pid mts) =
              ({ w.a with evicted := true }, [Msg.focusRequest]) := by
            simp only [onMessage]
            rw [if_pos hc]
            simp [handleDuplicateTab, h.aInactive]
          exact inv_stepA_aux h hq hmsg rfl rfl rfl rfl rfl
            (by intro x hx; simp only [List.mem_singleton] at hx; subst hx
                exact ⟨by simp [msgOkAB], by simp [isPongB]⟩)
            (by simp [isPingB])
        · have hmsg : onMessage now w.a (Msg.claim pid mts) = (w.a, []) := by
            simp only [onMessage]
            rw [if_neg hc]
          exact inv_stepA_aux h hq hmsg rfl rfl rfl rfl rfl (by intro x hx; cases hx)
            (by simp [isPingB])
    | focusRequest =>
        have hmsg : onMessage now w.a Msg.focusRequest = (w.a, []) := by
          simp only [onMessage]
          rw [if_neg (by rw [h.aInactive]; exact Bool.false_ne_true)]
        exact inv_stepA_aux h hq hmsg rfl rfl rfl rfl rfl (by intro x hx; cases hx)
          (by simp [isPingB])

/-- The invariant is preserved by any delivery schedule. -/
theorem inv_runSched {auid ats buid bts now : Nat} (hle : ats ≤ bts) (hne : auid ≠ buid) :
    ∀ (sched : List Bool) (w : World), Inv auid ats buid bts w →
      Inv auid ats buid bts (runSched now w sched)
  | [], _, h => h
  | s :: rest, w, h => by
    simp only [runSched]
    apply inv_runSched hle hne rest
    cases s
    · simpa using inv_deliverToB hle hne h
    · simpa using inv_deliverToA hle hne h

end TabM

namespace TabM

theorem pingTimeout_activate {now : Nat} (t : Tab)
    (h1 : t.receivedPong = false) (h2 : t.pingResponses = []) :
    (pingTimeout now t).1.isActive = true := by
  simp [pingTimeout, h1, h2, activateTab]

theorem pingTimeout_yield {now : Nat} (t : Tab)
    (h1 : t.receivedPong = true) (h2 : t.isActive = false) :
    (pingTimeout now t).1.isActive = false := by
  simp [pingTimeout, h1, h2, handleDuplicateTab]

theorem fireTimeouts_a (now : Nat) (o : Bool) (w : World) :
    (fireTimeouts now o w).a = (pingTimeout now w.a).1 := by
  cases o <;> simp [fireTimeouts]

theorem fireTimeouts_b (now : Nat) (o : Bool) (w : World) :
    (fireTimeouts now o w).b = (pingTimeout now w.b).1 := by
  cases o <;> simp [fireTimeouts]

/-- Election outcome when `a` is at least as old as `b`: `a` always
self-promotes at its timeout; `b` yields when strictly younger, and also
self-promotes when the creation stamps are equal. -/
theorem election_le (auid ats buid bts now : Nat) (sched : List Bool) (o : Bool)
    (hle : ats ≤ bts) (hne : auid ≠ buid)
    (hqab : (runSched now (startWorld auid ats buid bts) sched).qab = [])
    (hqba : (runSched now (startWorld auid ats buid bts) sched).qba = []) :
    (fireTimeouts now o (runSched now (startWorld auid ats buid bts) sched)).a.isActive = true ∧
    (ats < bts →
      (fireTimeouts now o (runSched now (startWorld auid ats buid bts) sched)).b.isActive = false) ∧
    (ats = bts →
      (fireTimeouts now o (runSched now (startWorld auid ats buid bts) sched)).b.isActive = true) := by
  have hinv : Inv auid ats buid bts (runSched now (startWorld auid ats buid bts) sched) :=
    inv_runSched hle hne sched _ (inv_start auid ats buid bts)
  rw [fireTimeouts_a, fireTimeouts_b]
  refine ⟨pingTimeout_activate _ hinv.aNoPong hinv.aNoResp, ?_, ?_⟩
  · intro hlt
    have hb : (runSched now (startWorld auid ats buid bts) sched).b.receivedPong = true := by
      rcases hinv.strictDisj hlt with h1 | h2 | h3
      · rw [hqba] at h1; simp at h1
      · rw [hqab] at h2; simp at h2
      · exact h3
    exact pingTimeout_yield _ hb hinv.bInactive
  · intro heq
    obtain ⟨h1, h2, -⟩ := hinv.equalCase heq
    exact pingTimeout_activate _ h1 h2

/-- Mirror of a two-peer world. -/
def World.swap (w : World) : World :=
  { a := w.b, b := w.a, qab := w.qba, qba := w.qab }

theorem swap_deliverToA (now : Nat) (w : World) :
    (deliverToA now w).swap = deliverToB now w.swap := by
  cases hq : w.qba <;> simp [deliverToA, deliverToB, World.swap, hq]

theorem swap_deliverToB (now : Nat) (w : World) :
    (deliverToB now w).swap = deliverToA now w.swap := by
  cases hq : w.qab <;> simp [deliverToA, deliverToB, World.swap, hq]

theorem swap_runSched (now : Nat) :
    ∀ (sched : List Bool) (w : World),
      (runSched now w sched).swap = runSched now w.swap (sched.map (!·))
  | [], _ => rfl
  | s :: rest, w => by
    simp only [runSched, List.map_cons]
    rw [swap_runSched now rest]
    cases s
    · simp [swap_deliverToB]
    · simp [swap_deliverToA]

theorem swap_fireTimeouts (now : Nat) (o : Bool) (w : World) :
    (fireTimeouts now o w).swap = fireTimeouts now (!o) w.swap := by
  cases o <;> simp [fireTimeouts, World.swap]

theorem swap_startWorld (auid ats buid bts : Nat) :
    (startWorld auid ats buid bts).swap = startWorld buid bts auid ats := rfl

/-- Full election outcome for two racing peers, any relative age. -/
theorem election_main (auid ats buid bts now : Nat) (sched : List Bool) (o : Bool)
    (hne : auid ≠ buid)
    (hqab : (runSched now (startWorld auid ats buid bts) sched).qab = [])
    (hqba : (runSched now (startWorld auid ats buid bts) sched).qba = []) :
    (ats < bts →
      (fireTimeouts now o (runSched now (startWorld auid ats buid bts) sched)).a.isActive = true ∧
      (fireTimeouts now o (runSched now (startWorld auid ats buid bts) sched)).b.isActive = false) ∧
    (bts < ats →
      (fireTimeouts now o (runSched now (startWorld auid ats buid bts) sched)).a.isActive = false ∧
      (fireTimeouts now o (runSched now (startWorld auid ats buid bts) sched)).b.isActive = true) ∧
    (ats = bts →
      (fireTimeouts now o (runSched now (startWorld auid ats buid bts) sched)).a.isActive = true ∧
      (fireTimeouts now o (runSched now (startWorld auid ats buid bts) sched)).b.isActive = true) := by
  refine ⟨?_, ?_, ?_⟩
  · intro hlt
    obtain ⟨h1, h2, -⟩ :=
      election_le auid ats buid bts now sched o (Nat.le_of_lt hlt) hne hqab hqba
    exact ⟨h1, h2 hlt⟩
  · intro hlt
    have hswap :
        fireTimeouts now (!o) (runSched now (startWorld buid bts auid ats) (sched.map (!·))) =
        (fireTimeouts now o (runSched now (startWorld auid ats buid bts) sched)).swap := by
      rw [swap_fireTimeouts, swap_runSched, swap_startWorld]
    have hqab' : (runSched now (startWorld buid bts auid ats) (sched.map (!·))).qab = [] := by
      rw [← swap_startWorld, ← swap_runSched]
      exact hqba
    have hqba' : (runSched now (startWorld buid bts auid ats) (sched.map (!·))).qba = [] := by
      rw [← swap_startWorld, ← swap_runSched]
      exact hqab
    obtain ⟨h1, h2, -⟩ :=
      election_le buid bts auid ats now (sched.map (!·)) (!o) (Nat.le_of_lt hlt)
        (Ne.symm hne) hqab' hqba'
    rw [hswap] at h1 h2
    exact ⟨h2 hlt, h1⟩
  · intro heq
    obtain ⟨h1, -, h3⟩ :=
      election_le auid ats buid bts now sched o (Nat.le_of_eq heq) hne hqab hqba
    exact ⟨h1, h3 heq⟩

end TabM

namespace TabLS

/-- `xmati_active_tab_id`, the localStorage key of the shared leader record. -/
def TAB_ID_KEY : String := "xmati_active_tab_id"

/-- `TAB_TIMEOUT`, the staleness window of the shared leader record (ms). -/
def TAB_TIMEOUT : Nat := 5000

/-- State of one TabManager instance in localStorage-fallback mode. -/
structure LSTab where
  tabId : Nat
  isActive : Bool
  evicted : Bool
deriving DecidableEq, Repr

/-- `handleDuplicateTab` in fallback mode: returns immediately when the
tab is active; the channel is null so no focus request is posted. -/
def handleDuplicateTabLS (t : LSTab) : LSTab :=
  if t.isActive then t else { t with evicted := true }

/-- The payload of a storage event: either unparseable JSON or a
`{tabId, timestamp}` record. -/
inductive StoredVal where
  | malformed
  | record (tabId ts : Nat)
deriving DecidableEq, Repr

/-- `handleStorageEvent`: runs on a storage-change notification.
`newValue = none` models a removal event; `some .malformed` a payload on
which `JSON.parse` throws (caught and logged, per the surrounding
try/catch). -/
def handleStorageEvent (now : Nat) (t : LSTab) (key : String) (newValue : Option StoredVal) :
    LSTab :=
  if key = TAB_ID_KEY then
    match newValue with
    | none => t
    | some .malformed => t
    | some (.record tid ts) =>
        if tid ≠ t.tabId ∧ t.isActive then
          (if now - ts < TAB_TIMEOUT then handleDuplicateTabLS t else t)
        else t
  else t

end TabLS

namespace WSW

/-- Connection readiness of the socket held in `socketRef`. -/
inductive SockSt where
  | connecting
  | opened
  | closed
deriving DecidableEq, Repr

/-- An untyped JavaScript value carried in a frame field. -/
inductive JVal where
  | undef
  | str (s : String)
  | bool (b : Bool)
deriving DecidableEq, Repr

/-- JavaScript truthiness of a `JVal`. -/
def truthy : JVal → Bool
  | .undef => false
  | .str s => s ≠ ""
  | .bool b => b

/-- JavaScript string coercion of a `JVal` (used when it is alerted). -/
def jvalText : JVal → String
  | .undef => "undefined"
  | .str s => s
  | .bool b => if b then "true" else "false"

/-- A successfully parsed inbound frame: `type` discriminator, the
`message` payload field and the truthiness of the `alert` field. -/
structure Frame where
  type : String
  message : JVal
  alertFlag : Bool
deriving DecidableEq, Repr

/-- Observable effects of classifying one parsed inbound frame. -/
structure MsgEffect where
  alerted : Option String
  logout : Bool
  blockUpd : Option Bool
  maintUpd : Option Bool
deriving DecidableEq, Repr

/-- The no-effect result. -/
def noEffect : MsgEffect := { alerted := none, logout := false, blockUpd := none, maintUpd := none }

/-- The `switch (data.type)` of `ws.onmessage` in
`WebSocketWrapper/index.tsx`. -/
def dispatch (f : Frame) : MsgEffect :=
  if f.type = "REGISTER_SUCCESS" then noEffect
  else if f.type = "DUPLICATE_SESSION" then
    { noEffect with
      alerted := some "You or Someone else is already logged in from another tab or device. Please close the other session and try again.",
      logout := true }
  else if f.type = "FORCE_LOGOUT" then
    { noEffect with
      alerted := (if f.alertFlag then
        some (if truthy f.message then jvalText f.message
              else "You have been logged out by the server.") else none),
      logout := true }
  else if f.type = "BLOCK_STATUS" then
    { noEffect with blockUpd := some (f.message == JVal.str "Blocked") }
  else if f.type = "MAINTENANCE_STATUS" then
    { noEffect with maintUpd := some (truthy f.message) }
  else if f.type = "error" then
    { noEffect with
      alerted := some ("WebSocket error: " ++
        (if truthy f.message then jvalText f.message else "Unknown error")),
      logout := true }
  else
    { noEffect with
      alerted := some ("[WebSocket] Unknown message type: " ++ f.type),
      logout := true }

/-- Raw inbound data: either a payload on which `JSON.parse` throws, or a
parsed frame. -/
inductive RawMsg where
  | malformed
  | frame (f : Frame)
deriving DecidableEq, Repr

/-- The whole `ws.onmessage` handler.  Its first statement is
`const data = JSON.parse(event.data)` with no enclosing try/catch, so a
parse failure propagates out of the handler (`Except.error`). -/
def wsOnMessage : RawMsg → Except Unit MsgEffect
  | .malformed => .error ()
  | .frame f => .ok (dispatch f)

end WSW

namespace WSW

/-- Props accepted by `WebSocketWrapper` in `index.tsx`.
`reconnectInterval` and `reconnectAttempts` are accepted (with defaults
3000 and 5) but never read anywhere in that file. -/
structure Config where
  enabled : Bool
  reconnectInterval : Nat
  reconnectAttempts : Nat
deriving DecidableEq, Repr

/-- Component state of `WebSocketWrapper` in `index.tsx`: React state,
refs, the persisted secure-storage records, and observable bookkeeping.
`connect` and the `ws.on*` handlers are closures that capture the
`isActiveTab` value of the render that created the socket, not the
current one: `sockSnap` is the snapshot captured by the closures of the
socket in `sock`; `pendingCb` lists the snapshots of sockets that were
closed and dropped locally and whose `onclose` callback has not yet
fired; `timers` lists the pending `setTimeout(connect, 1000)` reconnect
timers as (delay, captured snapshot) pairs — the handle is stored in a
local variable by `ws.onclose`, hence never cancellable through
`reconnectTimeoutRef`, and the `connect` a timer invokes is the closure
that created the closed socket; `attempts` counts how many times
`connect` actually constructed a new WebSocket. -/
structure Mgr where
  active : Bool
  sock : Option SockSt
  sockSnap : Bool
  connecting : Bool
  connected : Bool
  registered : Bool
  userId : Option String
  frames : Nat
  maint : Bool
  persistMaint : Option Bool
  blocked : Bool
  persistBlocked : Option Bool
  pendingCb : List Bool
  timers : List (Nat × Bool)
  refTimer : Bool
  count : Nat
  attempts : Nat
  loggedOut : Bool
  alerts : Nat
deriving DecidableEq, Repr

/-- Truthiness of the `userId` prop. -/
def userTruthy : Option String → Bool
  | some u => u ≠ ""
  | none => false

/-- `sendRegistration`: guarded by socket-open, identity-known and the
`hasRegisteredRef` flag; sends one REGISTER_CHILD frame and sets the
flag. -/
def sendRegistration (m : Mgr) : Mgr :=
  if m.sock = some SockSt.opened ∧ userTruthy m.userId = true ∧ m.registered = false then
    { m with frames := m.frames + 1, registered := true }
  else m

/-- `connect` in `index.tsx`, as invoked by a closure whose captured
`isActiveTab` is `snap` (the effect-driven calls pass the current flag,
a fired reconnect timer passes the snapshot of the render that created
the closed socket): bail out unless the captured flag is set; bail out
when disabled, already connecting, or already open; otherwise close and
drop any existing socket (its `onclose` will fire later, carrying its
own snapshot) and construct a new one whose handlers capture `snap`. -/
def connect (cfg : Config) (snap : Bool) (m : Mgr) : Mgr :=
  if snap = false then m
  else if cfg.enabled = false ∨ m.connecting = true ∨ m.sock = some SockSt.opened then m
  else
    let m1 := match m.sock with
      | some st =>
          { m with sock := none, pendingCb := m.pendingCb ++ (if st = SockSt.closed then [] else [m.sockSnap]) }
      | none => m
    { m1 with connecting := true, sock := some SockSt.connecting, sockSnap := snap, attempts := m1.attempts + 1 }

/-- `ws.onopen`: clear the maintenance flag (persisting it), mark
connected, reset the reconnect counter, and register if the identity is
already known. -/
def onOpen (m : Mgr) : Mgr :=
  if m.sock = some SockSt.connecting then
    let m1 := { m with sock := some SockSt.opened, maint := false, persistMaint := some false, connected := true, count := 0, connecting := false }
    if userTruthy m1.userId then sendRegistration m1 else m1
  else m

/-- `ws.onclose` firing for the socket currently held in `socketRef`:
clear connection and registration state and schedule
`setTimeout(connect, 1000)` unconditionally, keeping the timer handle in
a local variable. -/
def onCloseCur (m : Mgr) : Mgr :=
  if m.sock = some SockSt.connecting ∨ m.sock = some SockSt.opened then
    { m with sock := some SockSt.closed, connected := false, connecting := false, registered := false, timers := m.timers ++ [(1000, m.sockSnap)] }
  else m

/-- `ws.onclose` firing for a socket that was closed and dropped locally
(the handler closes over the refs, so it runs the same body; the
`connect` it schedules is that socket's closure, carrying its captured
snapshot). -/
def onCloseAbandoned (m : Mgr) : Mgr :=
  match m.pendingCb with
  | [] => m
  | sn :: rest =>
      { m with pendingCb := rest, connected := false, connecting := false, registered := false, timers := m.timers ++ [(1000, sn)] }

/-- `ws.onerror`: clear the connecting flag and optimistically raise the
maintenance screen, persisting the flag. -/
def onError (m : Mgr) : Mgr :=
  if m.sock ≠ none then
    { m with connecting := false, maint := true, persistMaint := some true }
  else m

/-- Apply the effects of one classified frame to the component state. -/
def recvFrame (m : Mgr) (f : Frame) : Mgr :=
  let e := dispatch f
  let m1 := { m with alerts := m.alerts + (if e.alerted = none then 0 else 1), loggedOut := m.loggedOut || e.logout }
  let m2 := match e.blockUpd with
    | some b => { m1 with blocked := b, persistBlocked := some b }
    | none => m1
  match e.maintUpd with
  | some b => { m2 with maint := b, persistMaint := some b }
  | none => m2

/-- A pending reconnect timer fires: it invokes the `connect` closure of
the render that created the closed socket, whose captured `isActiveTab`
is the stored snapshot — not the current flag. -/
def fireReconnect (cfg : Config) (m : Mgr) : Mgr :=
  match m.timers with
  | [] => m
  | (_, sn) :: rest => connect cfg sn { m with timers := rest }

/-- Cleanup of the mount effect (runs on unmount and on every
`isActiveTab` change): clear `reconnectTimeoutRef` (which this file never
assigns, so no timer is actually cancelled), close and drop the socket,
reset the connecting flag and the reconnect counter. -/
def effect1Cleanup (m : Mgr) : Mgr :=
  let m1 := { m with refTimer := false }
  let m2 := match m1.sock with
    | some st =>
        { m1 with sock := none, pendingCb := m1.pendingCb ++ (if st = SockSt.closed then [] else [m1.sockSnap]) }
    | none => m1
  { m2 with connecting := false, count := 0 }

/-- Body of the mount effect: connect if enabled; this is the current
render's `connect`, so its captured flag is the current one. -/
def effect1Body (cfg : Config) (m : Mgr) : Mgr :=
  if cfg.enabled then connect cfg m.active m else m

/-- Body of the tab-status effect: connect when active and enabled (and
not already open); when inactive, drop any held socket and clear the
connected and registration flags. -/
def effect2Body (cfg : Config) (m : Mgr) : Mgr :=
  if m.active = true ∧ cfg.enabled = true then
    (if m.sock = some SockSt.opened then m else connect cfg m.active m)
  else if m.active = false then
    (match m.sock with
     | some st =>
         { m with sock := none, pendingCb := m.pendingCb ++ (if st = SockSt.closed then [] else [m.sockSnap]), connected := false, registered := false }
     | none => m)
  else m

/-- A change of the leadership flag re-runs both effects keyed on
`isActiveTab`: first the mount effect's cleanup, then its body, then the
tab-status effect body. -/
def tabChange (cfg : Config) (b : Bool) (m : Mgr) : Mgr :=
  if b = m.active then m
  else effect2Body cfg (effect1Body cfg (effect1Cleanup { m with active := b }))

/-- The `userId` prop changes: no effect in this file watches it (the
watcher is absent), so only the prop value changes. -/
def setUserId (m : Mgr) (u : Option String) : Mgr := { m with userId := u }

/-- Fresh component state before the mount effects run. -/
def blankMgr (a0 : Bool) (uid : Option String) : Mgr :=
  { active := a0, sock := none, sockSnap := false, connecting := false,
    connected := false, registered := false, userId := uid, frames := 0,
    maint := false, persistMaint := none, blocked := false,
    persistBlocked := none, pendingCb := [], timers := [],
    refTimer := false, count := 0, attempts := 0, loggedOut := false,
    alerts := 0 }

/-- Mounting the component: both effects run. -/
def mount (cfg : Config) (a0 : Bool) (uid : Option String) : Mgr :=
  effect2Body cfg (effect1Body cfg (blankMgr a0 uid))

/-- Events driving the component. -/
inductive Ev where
  | tab (b : Bool)
  | sockOpen
  | sockClose
  | sockCloseCb
  | sockError
  | timer
  | recv (r : RawMsg)
  | uid (u : Option String)
  | unmount
deriving DecidableEq, Repr

/-- One event step. -/
def step (cfg : Config) (m : Mgr) : Ev → Mgr
  | .tab b => tabChange cfg b m
  | .sockOpen => onOpen m
  | .sockClose => onCloseCur m
  | .sockCloseCb => onCloseAbandoned m
  | .sockError => onError m
  | .timer => fireReconnect cfg m
  | .recv r => (match r with
      | .malformed => m
      | .frame f => if m.sock = some SockSt.opened then recvFrame m f else m)
  | .uid u => setUserId m u
  | .unmount => effect1Cleanup m

/-- Run a list of events. -/
def run (cfg : Config) (m : Mgr) : List Ev → Mgr
  | [] => m
  | e :: rest => run cfg (step cfg m e) rest

end WSW

namespace P0

/-- Retry state of the `WebSocketWrapper` variant that honours the
`reconnectAttempts`/`reconnectInterval` props: `count` is
`reconnectCountRef`, `timer` the delay of the timer held in
`reconnectTimeoutRef`, `gaveUp` the terminal "Max reconnection attempts
reached. Giving up." signal, `attempts` the number of reconnection
attempts performed. -/
structure Retry where
  count : Nat
  timer : Option Nat
  gaveUp : Bool
  attempts : Nat
deriving DecidableEq, Repr

/-- The reconnection tail of `ws.onclose` in that variant. -/
def onClose (enabled : Bool) (K D : Nat) (r : Retry) : Retry :=
  if enabled = true ∧ r.count < K then { r with timer := some D }
  else if r.count ≥ K then { r with gaveUp := true }
  else r

/-- The scheduled timer fires: bump the counter and call `connect`
(counted as one reconnection attempt). -/
def fireTimer (r : Retry) : Retry :=
  match r.timer with
  | some _ => { r with timer := none, count := r.count + 1, attempts := r.attempts + 1 }
  | none => r

/-- One failed reconnection cycle: the close handler runs, then the
scheduled timer (if any) fires and the fresh attempt fails again. -/
def failCycle (enabled : Bool) (K D : Nat) (r : Retry) : Retry :=
  fireTimer (onClose enabled K D r)

/-- State after the initial connection failure followed by `n` further
failed cycles. -/
def failRun (enabled : Bool) (K D : Nat) : Nat → Retry
  | 0 => { count := 0, timer := none, gaveUp := false, attempts := 0 }
  | n + 1 => failCycle enabled K D (failRun enabled K D n)

/-- Closed form of `failRun` when enabled. -/
theorem failRun_closed (K D : Nat) : ∀ n : Nat,
    failRun true K D n =
      (if n ≤ K then { count := n, timer := none, gaveUp := false, attempts := n }
       else { count := K, timer := none, gaveUp := true, attempts := K }) := by
  intro n
  induction n with
  | zero => simp [failRun]
  | succ n ih =>
    rw [failRun, ih]
    by_cases h : n ≤ K
    · rw [if_pos h]
      by_cases h2 : n < K
      · have : n + 1 ≤ K := h2
        rw [if_pos this]
        simp [failCycle, onClose, fireTimer, h2]
      · have hnk : n = K := Nat.le_antisymm h (Nat.not_lt.mp h2)
        subst hnk
        have : ¬ (n + 1 ≤ n) := by omega
        rw [if_neg this]
        simp [failCycle, onClose, fireTimer]
    · rw [if_neg h]
      have : ¬ (n + 1 ≤ K) := by omega
      rw [if_neg this]
      simp [failCycle, onClose, fireTimer]

end P0

namespace SST

/-- JSON escaping of one character inside a string literal. -/
def escChar (c : Char) : List Char :=
  if c = '"' ∨ c = '\\' then ['\\', c] else [c]

/-- JSON escaping of a character sequence. -/
def escList : List Char → List Char
  | [] => []
  | c :: rest => escChar c ++ escList rest

/-- `JSON.stringify` on a string value. -/
def jsonStringify (s : String) : String :=
  ⟨'"' :: (escList s.data ++ ['"'])⟩

/-- Unescape the interior of a JSON string literal; `none` when
invalid. -/
def unescape : List Char → Option (List Char)
  | [] => some []
  | c :: rest =>
    if c = '\\' then
      match rest with
      | [] => none
      | c2 :: rest2 =>
          if c2 = '"' ∨ c2 = '\\' then (unescape rest2).map (c2 :: ·) else none
    else if c = '"' then none
    else (unescape rest).map (c :: ·)

/-- `JSON.parse` on a document expected to be a single string literal;
`none` models a parse exception. -/
def jsonParse (s : String) : Option String :=
  match s.data with
  | [] => none
  | c :: rest =>
      if c = '"' then
        (if rest.getLast? = some '"' then (unescape rest.dropLast).map (fun l => ⟨l⟩) else none)
      else none

theorem unescape_cons_plain (c : Char) (l : List Char) (h1 : c ≠ '\\') (h2 : c ≠ '"') :
    unescape (c :: l) = (unescape l).map (c :: ·) := by
  rw [unescape.eq_def]
  dsimp only
  rw [if_neg h1, if_neg h2]

theorem unescape_cons_esc (c : Char) (l : List Char) (h : c = '"' ∨ c = '\\') :
    unescape ('\\' :: c :: l) = (unescape l).map (c :: ·) := by
  rw [unescape.eq_def]
  dsimp only
  rw [if_pos rfl]
  simp only [if_pos h]

theorem unescape_escList : ∀ l : List Char, unescape (escList l) = some l := by
  intro l
  induction l with
  | nil => rfl
  | cons c rest ih =>
    by_cases h : c = '"' ∨ c = '\\'
    · have h2 : escChar c = ['\\', c] := by simp [escChar, h]
      rw [escList, h2, List.cons_append, List.cons_append, List.nil_append,
        unescape_cons_esc c _ h, ih]
      rfl
    · push_neg at h
      have h2 : escChar c = [c] := by simp [escChar, h.1, h.2]
      rw [escList, h2, List.cons_append, List.nil_append,
        unescape_cons_plain c _ h.2 h.1, ih]
      rfl

theorem jsonParse_stringify (s : String) : jsonParse (jsonStringify s) = some s := by
  show jsonParse ⟨'"' :: (escList s.data ++ ['"'])⟩ = some s
  simp [jsonParse, List.getLast?_concat, List.dropLast_concat, unescape_escList]

/-- The opaque AES capability from `crypto-utils.js` (CryptoJS with the
session key folded in): encryption is total and never yields the empty
string, decryption of a genuine ciphertext recovers the plaintext,
decryption of anything else may fail (`none` models a throw or an empty
UTF-8 rendering). -/
structure Cipher where
  enc : String → String
  dec : String → Option String
  dec_enc : ∀ s, dec (enc s) = some s
  enc_ne : ∀ s, enc s ≠ ""

/-- `encryptData`: null/undefined input yields null, otherwise AES over
the JSON rendering. -/
def encryptData (c : Cipher) (data : Option String) : Option String :=
  match data with
  | none => none
  | some d => some (c.enc (jsonStringify d))

/-- `decryptData`: empty input yields null; a decryption failure, an
empty decrypted string or a JSON parse failure throw
(`Except.error`). -/
def decryptData (c : Cipher) (encryptedData : String) : Except Unit (Option String) :=
  if encryptedData = "" then .ok none
  else
    match c.dec encryptedData with
    | none => .error ()
    | some s =>
        if s = "" then .error ()
        else
          match jsonParse s with
          | none => .error ()
          | some v => .ok (some v)

/-- sessionStorage contents. -/
def Store := List (String × String)

instance : DecidableEq Store := by
  unfold Store
  infer_instance

/-- `sessionStorage.getItem`. -/
def storeGet (st : Store) (k : String) : Option String :=
  (st.find? (fun p => p.1 == k)).map (fun p => p.2)

/-- `sessionStorage.setItem`. -/
def storeSet (st : Store) (k v : String) : Store :=
  (k, v) :: st.filter (fun p => p.1 != k)

/-- `sessionStorage.removeItem`. -/
def storeRemove (st : Store) (k : String) : Store :=
  st.filter (fun p => p.1 != k)

/-- `SecureSessionStorage.setItem`: encrypt, and store when the result is
truthy. -/
def setItem (c : Cipher) (st : Store) (k v : String) : Store :=
  match encryptData c (some v) with
  | none => st
  | some e => if e = "" then st else storeSet st k e

/-- `SecureSessionStorage.getItem`: absent or falsy entries yield null;
a decryption error is caught, the corrupted entry removed, and null
returned. -/
def getItem (c : Cipher) (st : Store) (k : String) : Option String × Store :=
  match storeGet st k with
  | none => (none, st)
  | some e =>
      if e = "" then (none, st)
      else
        match decryptData c e with
        | .ok d => (d, st)
        | .error _ => (none, storeRemove st k)

end SST

namespace WSW

/-- Closure-capture invariant: the live socket's closures, every pending
close callback, and every pending reconnect timer captured the
`isActiveTab` flag while it was true — `connect` bails out before
constructing a socket otherwise. -/
def SnapsTrue (m : Mgr) : Prop :=
  (m.sock ≠ none → m.sockSnap = true) ∧
  (∀ sn ∈ m.pendingCb, sn = true) ∧
  (∀ p ∈ m.timers, p.2 = true)

/-- A quiescent follower: leadership flag false, no live socket, no
pending reconnect timer, no pending close callback. -/
def Quiet (m : Mgr) : Prop :=
  m.active = false ∧ (m.sock = none ∨ m.sock = some SockSt.closed) ∧
    m.timers = [] ∧ m.pendingCb = []

theorem connect_of_snap_false (cfg : Config) (m : Mgr) : connect cfg false m = m := by
  unfold connect
  rw [if_pos rfl]

theorem connect_active (cfg : Config) (snap : Bool) (m : Mgr) :
    (connect cfg snap m).active = m.active := by
  unfold connect
  split
  · rfl
  split
  · rfl
  cases m.sock <;> rfl

theorem sendRegistration_active (m : Mgr) : (sendRegistration m).active = m.active := by
  unfold sendRegistration
  split <;> rfl

theorem sendRegistration_sock (m : Mgr) : (sendRegistration m).sock = m.sock := by
  unfold sendRegistration
  split <;> rfl

theorem sendRegistration_snapsTrue (m : Mgr) (h : SnapsTrue m) :
    SnapsTrue (sendRegistration m) := by
  unfold sendRegistration
  split
  · exact h
  · exact h

theorem onOpen_active (m : Mgr) : (onOpen m).active = m.active := by
  simp only [onOpen]
  split_ifs <;> simp [sendRegistration_active]

theorem onOpen_of_not_connecting (m : Mgr) (h : ¬ m.sock = some SockSt.connecting) :
    onOpen m = m := by
  unfold onOpen
  rw [if_neg h]

theorem effect1Cleanup_sock (m : Mgr) : (effect1Cleanup m).sock = none := by
  unfold effect1Cleanup
  cases m.sock <;> rfl

theorem effect1Cleanup_active (m : Mgr) : (effect1Cleanup m).active = m.active := by
  unfold effect1Cleanup
  cases m.sock <;> rfl

theorem effect1Body_active (cfg : Config) (m : Mgr) : (effect1Body cfg m).active = m.active := by
  unfold effect1Body
  split
  · rw [connect_active]
  · rfl

theorem recvFrame_sock (m : Mgr) (f : Frame) : (recvFrame m f).sock = m.sock := by
  simp only [recvFrame]
  cases (dispatch f).blockUpd <;> cases (dispatch f).maintUpd <;> rfl

theorem recvFrame_active (m : Mgr) (f : Frame) : (recvFrame m f).active = m.active := by
  simp only [recvFrame]
  cases (dispatch f).blockUpd <;> cases (dispatch f).maintUpd <;> rfl

theorem connect_snapsTrue (cfg : Config) (snap : Bool) (m : Mgr) (h : SnapsTrue m) :
    SnapsTrue (connect cfg snap m) := by
  obtain ⟨h1, h2, h3⟩ := h
  unfold connect
  split
  · exact ⟨h1, h2, h3⟩
  rename_i hsn
  have hsnap : snap = true := by simpa using hsn
  split
  · exact ⟨h1, h2, h3⟩
  cases hs : m.sock with
  | none => exact ⟨fun _ => hsnap, h2, h3⟩
  | some st =>
      refine ⟨fun _ => hsnap, ?_, h3⟩
      intro sn hsn2
      rcases List.mem_append.mp hsn2 with hA | hB
      · exact h2 sn hA
      · by_cases hc : st = SockSt.closed
        · rw [if_pos hc] at hB; cases hB
        · rw [if_neg hc] at hB
          simp only [List.mem_singleton] at hB
          subst hB
          exact h1 (by rw [hs]; intro hx; cases hx)

theorem onOpen_snapsTrue (m : Mgr) (h : SnapsTrue m) : SnapsTrue (onOpen m) := by
  obtain ⟨h1, h2, h3⟩ := h
  simp only [onOpen]
  split_ifs with hc hu
  · apply sendRegistration_snapsTrue
    exact ⟨fun _ => h1 (by rw [hc]; intro hx; cases hx), h2, h3⟩
  · exact ⟨fun _ => h1 (by rw [hc]; intro hx; cases hx), h2, h3⟩
  · exact ⟨h1, h2, h3⟩

theorem onCloseCur_snapsTrue (m : Mgr) (h : SnapsTrue m) : SnapsTrue (onCloseCur m) := by
  obtain ⟨h1, h2, h3⟩ := h
  unfold onCloseCur
  split
  · rename_i hc
    have hsn : m.sockSnap = true := by
      rcases hc with hc | hc <;> exact h1 (by rw [hc]; intro hx; cases hx)
    refine ⟨fun _ => hsn, h2, ?_⟩
    intro p hp
    rcases List.mem_append.mp hp with hA | hB
    · exact h3 p hA
    · simp only [List.mem_singleton] at hB
      subst hB
      exact hsn
  · exact ⟨h1, h2, h3⟩

theorem onCloseAbandoned_snapsTrue (m : Mgr) (h : SnapsTrue m) :
    SnapsTrue (onCloseAbandoned m) := by
  obtain ⟨h1, h2, h3⟩ := h
  unfold onCloseAbandoned
  cases hp : m.pendingCb with
  | nil => exact ⟨h1, h2, h3⟩
  | cons sn rest =>
      refine ⟨h1, ?_, ?_⟩
      · intro x hx
        exact h2 x (by rw [hp]; exact List.mem_cons_of_mem _ hx)
      · intro p hpm
        rcases List.mem_append.mp hpm with hA | hB
        · exact h3 p hA
        · simp only [List.mem_singleton] at hB
          subst hB
          exact h2 sn (by rw [hp]; exact List.mem_cons_self _ _)

theorem onError_snapsTrue (m : Mgr) (h : SnapsTrue m) : SnapsTrue (onError m) := by
  unfold onError
  split
  · exact h
  · exact h

theorem recvFrame_snapsTrue (m : Mgr) (f : Frame) (h : SnapsTrue m) :
    SnapsTrue (recvFrame m f) := by
  simp only [recvFrame]
  cases (dispatch f).blockUpd <;> cases (dispatch f).maintUpd <;> exact h

theorem fireReconnect_snapsTrue (cfg : Config) (m : Mgr) (h : SnapsTrue m) :
    SnapsTrue (fireReconnect cfg m) := by
  obtain ⟨h1, h2, h3⟩ := h
  unfold fireReconnect
  cases hp : m.timers with
  | nil => exact ⟨h1, h2, h3⟩
  | cons p rest =>
      apply connect_snapsTrue
      exact ⟨h1, h2, fun q hq => h3 q (by rw [hp]; exact List.mem_cons_of_mem _ hq)⟩

theorem effect1Cleanup_snapsTrue (m : Mgr) (h : SnapsTrue m) :
    SnapsTrue (effect1Cleanup m) := by
  obtain ⟨h1, h2, h3⟩ := h
  unfold effect1Cleanup
  cases hs : m.sock with
  | none => exact ⟨fun hx => absurd rfl hx, h2, h3⟩
  | some st =>
      refine ⟨fun hx => absurd rfl hx, ?_, h3⟩
      intro sn hsn
      rcases List.mem_append.mp hsn with hA | hB
      · exact h2 sn hA
      · by_cases hc : st = SockSt.closed
        · rw [if_pos hc] at hB; cases hB
        · rw [if_neg hc] at hB
          simp only [List.mem_singleton] at hB
          subst hB
          exact h1 (by rw [hs]; intro hx; cases hx)

theorem effect1Body_snapsTrue (cfg : Config) (m : Mgr) (h : SnapsTrue m) :
    SnapsTrue (effect1Body cfg m) := by
  unfold effect1Body
  split
  · exact connect_snapsTrue cfg m.active m h
  · exact h

theorem effect2Body_snapsTrue (cfg : Config) (m : Mgr) (h : SnapsTrue m) :
    SnapsTrue (effect2Body cfg m) := by
  obtain ⟨h1, h2, h3⟩ := h
  unfold effect2Body
  split
  · split
    · exact ⟨h1, h2, h3⟩
    · exact connect_snapsTrue cfg m.active m ⟨h1, h2, h3⟩
  split
  · cases hs : m.sock with
    | none => exact ⟨h1, h2, h3⟩
    | some st =>
        refine ⟨fun hx => absurd rfl hx, ?_, h3⟩
        intro sn hsn
        rcases List.mem_append.mp hsn with hA | hB
        · exact h2 sn hA
        · by_cases hc : st = SockSt.closed
          · rw [if_pos hc] at hB; cases hB
          · rw [if_neg hc] at hB
            simp only [List.mem_singleton] at hB
            subst hB
            exact h1 (by rw [hs]; intro hx; cases hx)
  · exact ⟨h1, h2, h3⟩

theorem tabChange_snapsTrue (cfg : Config) (b : Bool) (m : Mgr) (h : SnapsTrue m) :
    SnapsTrue (tabChange cfg b m) := by
  unfold tabChange
  split
  · exact h
  · exact effect2Body_snapsTrue cfg _
      (effect1Body_snapsTrue cfg _ (effect1Cleanup_snapsTrue _ h))

theorem step_snapsTrue (cfg : Config) (m : Mgr) (e : Ev) (h : SnapsTrue m) :
    SnapsTrue (step cfg m e) := by
  cases e with
  | tab b => exact tabChange_snapsTrue cfg b m h
  | sockOpen => exact onOpen_snapsTrue m h
  | sockClose => exact onCloseCur_snapsTrue m h
  | sockCloseCb => exact onCloseAbandoned_snapsTrue m h
  | sockError => exact onError_snapsTrue m h
  | timer => exact fireReconnect_snapsTrue cfg m h
  | recv r =>
      cases r with
      | malformed => exact h
      | frame f =>
          simp only [step]
          split
          · exact recvFrame_snapsTrue m f h
          · exact h
  | uid u => exact h
  | unmount => exact effect1Cleanup_snapsTrue m h

theorem run_snapsTrue (cfg : Config) : ∀ (evs : List Ev) (m : Mgr), SnapsTrue m →
    SnapsTrue (run cfg m evs)
  | [], _, h => h
  | e :: rest, m, h => run_snapsTrue cfg rest _ (step_snapsTrue cfg m e h)

theorem blankMgr_snapsTrue (a0 : Bool) (uid : Option String) : SnapsTrue (blankMgr a0 uid) :=
  ⟨fun hx => absurd rfl hx, fun _ hx => absurd hx (List.not_mem_nil _),
   fun _ hx => absurd hx (List.not_mem_nil _)⟩

theorem mount_snapsTrue (cfg : Config) (a0 : Bool) (uid : Option String) :
    SnapsTrue (mount cfg a0 uid) :=
  effect2Body_snapsTrue cfg _ (effect1Body_snapsTrue cfg _ (blankMgr_snapsTrue a0 uid))

theorem effect1Cleanup_timers (m : Mgr) : (effect1Cleanup m).timers = m.timers := by
  unfold effect1Cleanup
  cases m.sock <;> rfl

theorem effect1Cleanup_pendingCb_quiet (m : Mgr)
    (h : m.sock = none ∨ m.sock = some SockSt.closed) :
    (effect1Cleanup m).pendingCb = m.pendingCb := by
  rcases h with h | h <;> simp [effect1Cleanup, h]

theorem quiet_step (cfg : Config) (m : Mgr) (e : Ev) (hq : Quiet m)
    (hne : e ≠ Ev.tab true) : Quiet (step cfg m e) := by
  obtain ⟨ha, hs, ht, hp⟩ := hq
  cases e with
  | tab b =>
      cases b
      · simp only [step, tabChange]
        rw [if_pos ha.symm]
        exact ⟨ha, hs, ht, hp⟩
      · exact absurd rfl hne
  | sockOpen =>
      have : onOpen m = m := by
        apply onOpen_of_not_connecting
        rcases hs with h | h <;> rw [h] <;> intro hx <;> cases hx
      simp only [step, this]
      exact ⟨ha, hs, ht, hp⟩
  | sockClose =>
      have : onCloseCur m = m := by
        unfold onCloseCur
        rw [if_neg ?_]
        rintro (hx | hx) <;> rcases hs with h | h <;> rw [h] at hx <;> cases hx
      simp only [step, this]
      exact ⟨ha, hs, ht, hp⟩
  | sockCloseCb =>
      simp only [step, onCloseAbandoned, hp]
      exact ⟨ha, hs, ht, hp⟩
  | sockError =>
      simp only [step]
      unfold onError
      split
      · exact ⟨ha, hs, ht, hp⟩
      · exact ⟨ha, hs, ht, hp⟩
  | timer =>
      simp only [step, fireReconnect, ht]
      exact ⟨ha, hs, ht, hp⟩
  | recv r =>
      cases r with
      | malformed => exact ⟨ha, hs, ht, hp⟩
      | frame f =>
          simp only [step]
          rw [if_neg ?_]
          · exact ⟨ha, hs, ht, hp⟩
          · rcases hs with h | h <;> rw [h] <;> intro hx <;> cases hx
  | uid u => exact ⟨ha, hs, ht, hp⟩
  | unmount =>
      simp only [step]
      refine ⟨?_, Or.inl (effect1Cleanup_sock m), ?_, ?_⟩
      · rw [effect1Cleanup_active]; exact ha
      · rw [effect1Cleanup_timers]; exact ht
      · rw [effect1Cleanup_pendingCb_quiet m hs]; exact hp

end WSW

namespace WSW

theorem sendRegistration_maint (m : Mgr) : (sendRegistration m).maint = m.maint := by
  unfold sendRegistration
  split <;> rfl

theorem sendRegistration_persistMaint (m : Mgr) :
    (sendRegistration m).persistMaint = m.persistMaint := by
  unfold sendRegistration
  split <;> rfl

theorem effect1Cleanup_registered (m : Mgr) :
    (effect1Cleanup m).registered = m.registered := by
  unfold effect1Cleanup
  cases m.sock <;> rfl

theorem effect1Cleanup_pendingCb_open (m : Mgr) (h : m.sock = some SockSt.opened) :
    (effect1Cleanup m).pendingCb = m.pendingCb ++ [m.sockSnap] := by
  simp [effect1Cleanup, h]

theorem effect1Body_of_inactive (cfg : Config) (m : Mgr) (h : m.active = false) :
    effect1Body cfg m = m := by
  unfold effect1Body
  split
  · rw [h]
    exact connect_of_snap_false cfg m
  · rfl

theorem effect2Body_of_inactive_none (cfg : Config) (m : Mgr)
    (h1 : m.active = false) (h2 : m.sock = none) : effect2Body cfg m = m := by
  unfold effect2Body
  rw [if_neg (by simp [h1])]
  rw [if_pos h1]
  simp [h2]

theorem tabChange_false_eq (cfg : Config) (m : Mgr) (h : m.active = true) :
    tabChange cfg false m = effect1Cleanup { m with active := false } := by
  unfold tabChange
  rw [if_neg (by simp [h])]
  have hact : (effect1Cleanup { m with active := false }).active = false := by
    rw [effect1Cleanup_active]
  rw [effect1Body_of_inactive cfg _ hact,
    effect2Body_of_inactive_none cfg _ hact (effect1Cleanup_sock _)]

theorem onCloseAbandoned_of_pending (m : Mgr) (sn : Bool) (rest : List Bool)
    (h : m.pendingCb = sn :: rest) :
    onCloseAbandoned m =
      { m with pendingCb := rest, connected := false, connecting := false,
               registered := false, timers := m.timers ++ [(1000, sn)] } := by
  simp only [onCloseAbandoned, h]

end WSW

namespace SST

theorem jsonStringify_ne (s : String) : jsonStringify s ≠ "" := by
  intro h
  have h2 := congrArg String.data h
  simp [jsonStringify] at h2

theorem storeGet_set (st : Store) (k v : String) : storeGet (storeSet st k v) k = some v := by
  simp [storeGet, storeSet, List.find?]

/-- A concrete instance of the opaque cipher capability, used to witness
the storage theorems: prefix the plaintext with a marker character. -/
def myCipher : Cipher where
  enc := fun s => ⟨'E' :: s.data⟩
  dec := fun s =>
    match s.data with
    | 'E' :: rest => some ⟨rest⟩
    | _ => none
  dec_enc := fun _ => rfl
  enc_ne := by
    intro s h
    have h2 := congrArg String.data h
    simp at h2

end SST

/-- C1: the claim says a peer with `isActive = true` yields (its flag
becomes false) on learning of another active peer.  In the code,
`handleDuplicateTab` returns immediately when `isActive` is true and no
code path ever resets `isActive`, so the storage-event conflict branch is
a no-op: this theorem evaluates the handlers and shows the state is
unchanged — in fallback mode on every storage event (first conjunct, and
at the concrete failing input, second conjunct), and in broadcast mode on
a heartbeat from another peer while active (third conjunct). -/
theorem C1_active_peer_never_yields :
    (∀ (now : Nat) (t : TabLS.LSTab) (key : String) (v : Option TabLS.StoredVal),
      TabLS.handleStorageEvent now t key v = t) ∧
    (TabLS.handleStorageEvent 1000 ⟨1, true, false⟩ TabLS.TAB_ID_KEY
      (some (TabLS.StoredVal.record 2 900)) = ⟨1, true, false⟩) ∧
    ((TabM.onMessage 1000 ⟨5, 1, true, false, [], false, 0⟩ (TabM.Msg.heartbeat 2 999)).1 =
      ⟨5, 1, true, false, [], false, 0⟩) := by
  refine ⟨?_, ?_, by decide⟩
  · intro now t key v
    cases v with
    | none => simp [TabLS.handleStorageEvent]
    | some sv =>
        cases sv with
        | malformed => simp [TabLS.handleStorageEvent]
        | record tid ts =>
            simp only [TabLS.handleStorageEvent, TabLS.handleDuplicateTabLS]
            split_ifs with h1 h2 h3 h4 <;> first | rfl | exact absurd h2.2 h4
  · decide

/-- C2 (counterexample): with equal creation timestamps (both 5), a full
exchange of the startup pings and claims followed by both timeouts leaves
BOTH peers with `isActive = true` — the claim's "equal timestamps yield
leadership to neither peer" is false on the code. -/
theorem C2_equal_stamps_both_activate :
    (TabM.fireTimeouts 100 true
      (TabM.runSched 100 (TabM.startWorld 1 5 2 5) [false, false, true, true])).a.isActive
      = true ∧
    (TabM.fireTimeouts 100 true
      (TabM.runSched 100 (TabM.startWorld 1 5 2 5) [false, false, true, true])).b.isActive
      = true := by
  decide

/-- C2 (amended): for two peers exchanging their startup ping/claim
messages and any reactive pongs in any delivery order (per-sender FIFO,
all messages delivered within the election window, i.e. before either
PING_TIMEOUT fires), the peer with the strictly smaller creation
timestamp ends with `isActive = true` and the other with false; with
equal timestamps both peers self-promote (transient double leadership),
not neither. -/
theorem C2_oldest_wins_tiebreak (auid ats buid bts now : Nat) (sched : List Bool) (o : Bool)
    (hne : auid ≠ buid)
    (hqab : (TabM.runSched now (TabM.startWorld auid ats buid bts) sched).qab = [])
    (hqba : (TabM.runSched now (TabM.startWorld auid ats buid bts) sched).qba = []) :
    (ats < bts →
      (TabM.fireTimeouts now o
        (TabM.runSched now (TabM.startWorld auid ats buid bts) sched)).a.isActive = true ∧
      (TabM.fireTimeouts now o
        (TabM.runSched now (TabM.startWorld auid ats buid bts) sched)).b.isActive = false) ∧
    (bts < ats →
      (TabM.fireTimeouts now o
        (TabM.runSched now (TabM.startWorld auid ats buid bts) sched)).a.isActive = false ∧
      (TabM.fireTimeouts now o
        (TabM.runSched now (TabM.startWorld auid ats buid bts) sched)).b.isActive = true) ∧
    (ats = bts →
      (TabM.fireTimeouts now o
        (TabM.runSched now (TabM.startWorld auid ats buid bts) sched)).a.isActive = true ∧
      (TabM.fireTimeouts now o
        (TabM.runSched now (TabM.startWorld auid ats buid bts) sched)).b.isActive = true) :=
  TabM.election_main auid ats buid bts now sched o hne hqab hqba

/-- C2 (witness): a concrete strict-case run — peer of stamp 1 against
peer of stamp 2, a full delivery schedule — resolved by the amended
theorem. -/
theorem C2_oldest_wins_witness :
    (TabM.fireTimeouts 100 true
      (TabM.runSched 100 (TabM.startWorld 1 1 2 2)
        [false, false, true, true, true, false, true])).a.isActive = true ∧
    (TabM.fireTimeouts 100 true
      (TabM.runSched 100 (TabM.startWorld 1 1 2 2)
        [false, false, true, true, true, false, true])).b.isActive = false :=
  (C2_oldest_wins_tiebreak 1 1 2 2 100 [false, false, true, true, true, false, true] true
    (by decide) (by decide) (by decide)).1 (by decide)

/-- C3: the claim says registration is sent exactly once per Open period
in either event order.  In the code, `sendRegistration` is invoked only
from `ws.onopen` (the identity watcher is commented out), so when the
identity becomes known after the connection opens, no registration frame
is ever sent: after [open with unknown identity; identity becomes known]
the socket is open, the identity is truthy, yet zero frames were sent —
while the identity-first order does send exactly one. -/
theorem C3_registration_not_sent_when_identity_late :
    (WSW.setUserId (WSW.onOpen (WSW.mount ⟨true, 3000, 5⟩ true none)) (some "u1")).frames = 0 ∧
    (WSW.setUserId (WSW.onOpen (WSW.mount ⟨true, 3000, 5⟩ true none))
      (some "u1")).sock = some WSW.SockSt.opened ∧
    WSW.userTruthy
      (WSW.setUserId (WSW.onOpen (WSW.mount ⟨true, 3000, 5⟩ true none)) (some "u1")).userId
      = true ∧
    (WSW.onOpen (WSW.mount ⟨true, 3000, 5⟩ true (some "u1"))).frames = 1 := by
  decide

/-- C4 (counterexample): the follower-safety half of the claim is false
on the code.  `ws.onclose` schedules `setTimeout(connect, 1000)` with the
`connect` closure of the render that created the socket, whose captured
`isActiveTab` is still true after leadership loss; so after [open,
leadership lost, close callback, timer fires] the component is a
follower (`active = false`) yet holds a fresh Connecting socket — the
connection state is neither Idle nor Closed while the flag is false. -/
theorem C4_follower_opens_socket_via_stale_timer :
    (WSW.run ⟨true, 3000, 5⟩ (WSW.mount ⟨true, 3000, 5⟩ true (some "u"))
      [WSW.Ev.sockOpen, WSW.Ev.tab false, WSW.Ev.sockCloseCb, WSW.Ev.timer]).active = false ∧
    (WSW.run ⟨true, 3000, 5⟩ (WSW.mount ⟨true, 3000, 5⟩ true (some "u"))
      [WSW.Ev.sockOpen, WSW.Ev.tab false, WSW.Ev.sockCloseCb, WSW.Ev.timer]).sock
      = some WSW.SockSt.connecting := by
  decide

/-- C4 (amended): (1) `connect` invoked through a closure whose captured
leadership flag is false is a no-op; (2) in every reachable state, the
live socket, every pending close callback and every pending reconnect
timer captured the flag while it was true — a follower can come to hold
a live socket only through such a stale leader closure; (3) a quiescent
follower (no live socket, no pending timer or callback) stays quiescent
under every event except regaining leadership; (4) a true-to-false
leadership transition while Open drops the socket at once (leaving
`Registered` set), and the socket's close callback then clears
`Registered` and schedules a 1000 ms retry timer carrying the stale
snapshot — the transition does NOT bypass the retry scheduler, and the
fired timer reconnects even though the peer is now a follower. -/
theorem C4_no_connection_while_follower :
    (∀ (cfg : WSW.Config) (m : WSW.Mgr), WSW.connect cfg false m = m) ∧
    (∀ (cfg : WSW.Config) (a0 : Bool) (uid : Option String) (evs : List WSW.Ev),
      WSW.SnapsTrue (WSW.run cfg (WSW.mount cfg a0 uid) evs)) ∧
    (∀ (cfg : WSW.Config) (m : WSW.Mgr) (e : WSW.Ev),
      WSW.Quiet m → e ≠ WSW.Ev.tab true → WSW.Quiet (WSW.step cfg m e)) ∧
    (∀ (cfg : WSW.Config) (m : WSW.Mgr), m.active = true → m.sock = some WSW.SockSt.opened →
      m.pendingCb = [] →
      (WSW.tabChange cfg false m).sock = none ∧
      (WSW.tabChange cfg false m).registered = m.registered ∧
      (WSW.tabChange cfg false m).pendingCb = [m.sockSnap] ∧
      (WSW.onCloseAbandoned (WSW.tabChange cfg false m)).registered = false ∧
      (WSW.onCloseAbandoned (WSW.tabChange cfg false m)).timers
        = m.timers ++ [(1000, m.sockSnap)]) := by
  refine ⟨?_, ?_, ?_, ?_⟩
  · intro cfg m
    exact WSW.connect_of_snap_false cfg m
  · intro cfg a0 uid evs
    exact WSW.run_snapsTrue cfg evs _ (WSW.mount_snapsTrue cfg a0 uid)
  · intro cfg m e hq hne
    exact WSW.quiet_step cfg m e hq hne
  · intro cfg m hact hsock hpend
    rw [WSW.tabChange_false_eq cfg m hact]
    have hsock' : ({ m with active := false } : WSW.Mgr).sock = some WSW.SockSt.opened := hsock
    have hpcb : (WSW.effect1Cleanup { m with active := false }).pendingCb = [m.sockSnap] := by
      rw [WSW.effect1Cleanup_pendingCb_open _ hsock']
      rw [show ({ m with active := false } : WSW.Mgr).pendingCb = m.pendingCb from rfl, hpend]
      rfl
    rw [WSW.onCloseAbandoned_of_pending _ m.sockSnap []
      (by rw [hpcb] : (WSW.effect1Cleanup { m with active := false }).pendingCb
        = m.sockSnap :: [])]
    refine ⟨WSW.effect1Cleanup_sock _, WSW.effect1Cleanup_registered _, hpcb, rfl, ?_⟩
    simp only [WSW.effect1Cleanup_timers]

/-- C4 (witness): the amended theorem applied at concrete inputs — the
no-op connect, the capture invariant after a concrete trace, the
quiescent-follower step, and the registration clearing at the close
callback. -/
theorem C4_no_connection_while_follower_witness :
    WSW.connect ⟨true, 3000, 5⟩ false (WSW.blankMgr false (some "u"))
      = WSW.blankMgr false (some "u") ∧
    WSW.SnapsTrue (WSW.run ⟨true, 3000, 5⟩ (WSW.mount ⟨true, 3000, 5⟩ true (some "u"))
      [WSW.Ev.tab false]) ∧
    WSW.Quiet (WSW.step ⟨true, 3000, 5⟩ (WSW.blankMgr false none) WSW.Ev.sockClose) ∧
    (WSW.onCloseAbandoned (WSW.tabChange ⟨true, 3000, 5⟩ false
      { WSW.blankMgr true (some "u") with
        sock := some WSW.SockSt.opened, sockSnap := true })).registered = false :=
  ⟨C4_no_connection_while_follower.1 ⟨true, 3000, 5⟩ (WSW.blankMgr false (some "u")),
   C4_no_connection_while_follower.2.1 ⟨true, 3000, 5⟩ true (some "u") [WSW.Ev.tab false],
   C4_no_connection_while_follower.2.2.1 ⟨true, 3000, 5⟩ (WSW.blankMgr false none)
     WSW.Ev.sockClose ⟨rfl, Or.inl rfl, rfl, rfl⟩ (by decide),
   (C4_no_connection_while_follower.2.2.2 ⟨true, 3000, 5⟩
     { WSW.blankMgr true (some "u") with
       sock := some WSW.SockSt.opened, sockSnap := true }
     (by decide) (by decide) (by decide)).2.2.2.1⟩

/-- C5 (counterexample): the manager in `WebSocketWrapper/index.tsx`
accepts `reconnectInterval = 3000` and `reconnectAttempts = 1` but
ignores both: its close handler schedules every retry after 1000 ms, and
after three failure cycles it has made 4 connection attempts (1 initial +
3 reconnections > K = 1) with no terminal gave-up signal — the claim's
ceiling and delay are not respected by this manager. -/
theorem C5_index_manager_ignores_ceiling :
    (WSW.run ⟨true, 3000, 1⟩ (WSW.mount ⟨true, 3000, 1⟩ true (some "u"))
      [WSW.Ev.sockClose]).timers = [(1000, true)] ∧
    (WSW.run ⟨true, 3000, 1⟩ (WSW.mount ⟨true, 3000, 1⟩ true (some "u"))
      [WSW.Ev.sockClose, WSW.Ev.timer, WSW.Ev.sockClose, WSW.Ev.timer,
       WSW.Ev.sockClose, WSW.Ev.timer]).attempts = 4 := by
  decide

/-- C5 (amended): the bounded-retry `WebSocketWrapper` variant (the one
that reads its props) respects the ceiling: after the initial failure and
`n` further failed cycles it has performed exactly `min n K` reconnection
attempts (hence at most K); while under the ceiling every scheduled timer
carries delay D; once more than K cycles have elapsed the terminal
"Giving up" signal is raised; and from the K-th cycle on no further
attempt is ever made. -/
theorem C5_retry_ceiling_respected (K D n : Nat) :
    (P0.failRun true K D n).attempts = min n K ∧
    ((P0.failRun true K D n).count < K →
      (P0.onClose true K D (P0.failRun true K D n)).timer = some D) ∧
    (K < n → (P0.failRun true K D n).gaveUp = true) ∧
    (K ≤ n → (P0.failRun true K D n).attempts = K) := by
  rw [P0.failRun_closed]
  by_cases h : n ≤ K
  · rw [if_pos h]
    refine ⟨by simp; omega, ?_, ?_, ?_⟩
    · intro hlt
      simp only at hlt
      simp [P0.onClose, hlt]
    · intro hlt
      omega
    · intro hle
      simp only
      omega
  · rw [if_neg h]
    refine ⟨by simp; omega, ?_, ?_, ?_⟩
    · intro hlt
      simp only at hlt
      omega
    · intro _
      rfl
    · intro _
      rfl

/-- C5 (witness): the amended theorem at K = 2, D = 3000, n = 5. -/
theorem C5_retry_ceiling_witness :
    (P0.failRun true 2 3000 5).attempts = min 5 2 ∧
    (P0.failRun true 2 3000 5).gaveUp = true ∧
    (P0.failRun true 2 3000 5).attempts = 2 ∧
    (P0.onClose true 2 3000 (P0.failRun true 2 3000 1)).timer = some 3000 :=
  ⟨(C5_retry_ceiling_respected 2 3000 5).1,
   (C5_retry_ceiling_respected 2 3000 5).2.2.1 (by decide),
   (C5_retry_ceiling_respected 2 3000 5).2.2.2 (by decide),
   (C5_retry_ceiling_respected 2 3000 1).2.1 (by decide)⟩

/-- C6: the claim says stop/cleanup leaves no reconnection timer pending
and no connect attempt fires later.  In the code, `ws.onclose` stores its
`setTimeout(connect, 1000)` handle in a local variable while the cleanup
clears only `reconnectTimeoutRef` — which this file never assigns — so
after [open, server close, unmount] the timer is still pending, and when
it fires, `connect` constructs a fresh socket (a second attempt) after
cleanup.  Running the cleanup again is a no-op (stop is idempotent, the
one part of the claim that holds). -/
theorem C6_cleanup_leaves_timer_pending :
    (WSW.run ⟨true, 3000, 5⟩ (WSW.mount ⟨true, 3000, 5⟩ true (some "u"))
      [WSW.Ev.sockOpen, WSW.Ev.sockClose, WSW.Ev.unmount]).timers = [(1000, true)] ∧
    (WSW.run ⟨true, 3000, 5⟩ (WSW.mount ⟨true, 3000, 5⟩ true (some "u"))
      [WSW.Ev.sockOpen, WSW.Ev.sockClose, WSW.Ev.unmount, WSW.Ev.timer]).sock
      = some WSW.SockSt.connecting ∧
    (WSW.run ⟨true, 3000, 5⟩ (WSW.mount ⟨true, 3000, 5⟩ true (some "u"))
      [WSW.Ev.sockOpen, WSW.Ev.sockClose, WSW.Ev.unmount, WSW.Ev.timer]).attempts = 2 ∧
    WSW.effect1Cleanup
      (WSW.run ⟨true, 3000, 5⟩ (WSW.mount ⟨true, 3000, 5⟩ true (some "u"))
        [WSW.Ev.sockOpen, WSW.Ev.sockClose, WSW.Ev.unmount]) =
      WSW.run ⟨true, 3000, 5⟩ (WSW.mount ⟨true, 3000, 5⟩ true (some "u"))
        [WSW.Ev.sockOpen, WSW.Ev.sockClose, WSW.Ev.unmount] := by
  decide

/-- C7: every parsed inbound frame whose `type` is none of the six
recognized discriminators falls through to the default branch, which
surfaces an alert and triggers the logout action — never a silent
ignore. -/
theorem C7_unknown_frame_fails_closed (f : WSW.Frame)
    (h : f.type ∉ (["REGISTER_SUCCESS", "DUPLICATE_SESSION", "FORCE_LOGOUT",
      "BLOCK_STATUS", "MAINTENANCE_STATUS", "error"] : List String)) :
    (WSW.dispatch f).logout = true ∧ (WSW.dispatch f).alerted ≠ none := by
  simp only [List.mem_cons, List.not_mem_nil, or_false, not_or] at h
  obtain ⟨h1, h2, h3, h4, h5, h6⟩ := h
  simp [WSW.dispatch, WSW.noEffect, h1, h2, h3, h4, h5, h6]

/-- C7 (witness): a concrete unrecognized frame type. -/
theorem C7_unknown_frame_witness :
    (WSW.dispatch ⟨"BOGUS", WSW.JVal.undef, false⟩).logout = true ∧
    (WSW.dispatch ⟨"BOGUS", WSW.JVal.undef, false⟩).alerted ≠ none :=
  C7_unknown_frame_fails_closed ⟨"BOGUS", WSW.JVal.undef, false⟩ (by decide)

/-- C8 (counterexample): a connection frame whose payload fails to parse
is NOT dropped and logged — `ws.onmessage` runs `JSON.parse(event.data)`
with no try/catch, so the parse exception (modelled as `Except.error`)
escapes the handler instead of the handler returning normally. -/
theorem C8_connection_parse_failure_throws :
    WSW.wsOnMessage WSW.RawMsg.malformed = Except.error () := rfl

/-- C8 (amended): an election message that fails to parse is dropped with
no state change (the storage handlers catch and log, first conjunct); a
connection frame that fails to parse also leaves all component state
unchanged (third conjunct), but the parse exception propagates out of
`ws.onmessage` uncaught and unlogged (second conjunct). -/
theorem C8_malformed_message_tolerance :
    (∀ (now : Nat) (t : TabLS.LSTab) (key : String),
      TabLS.handleStorageEvent now t key (some TabLS.StoredVal.malformed) = t) ∧
    (WSW.wsOnMessage WSW.RawMsg.malformed = Except.error ()) ∧
    (∀ (cfg : WSW.Config) (m : WSW.Mgr),
      WSW.step cfg m (WSW.Ev.recv WSW.RawMsg.malformed) = m) := by
  refine ⟨?_, rfl, ?_⟩
  · intro now t key
    simp [TabLS.handleStorageEvent]
  · intro cfg m
    rfl

/-- C9: writing any string through the secure-storage wrapper and reading
it back yields the original (decrypt of encrypt of the JSON rendering,
then JSON parse); and a stored entry whose decryption fails is purged
from storage and read as null instead of surfacing the error. -/
theorem C9_round_trip_and_purge (c : SST.Cipher) (st : SST.Store) (k v : String) :
    SST.getItem c (SST.setItem c st k v) k = (some v, SST.setItem c st k v) ∧
    (∀ e : String, SST.storeGet st k = some e → ¬ e = "" →
      SST.decryptData c e = Except.error () →
      SST.getItem c st k = (none, SST.storeRemove st k)) := by
  constructor
  · have hset : SST.setItem c st k v = SST.storeSet st k (c.enc (SST.jsonStringify v)) := by
      simp only [SST.setItem, SST.encryptData]
      rw [if_neg (c.enc_ne _)]
    have hdec : SST.decryptData c (c.enc (SST.jsonStringify v)) = Except.ok (some v) := by
      simp only [SST.decryptData]
      rw [if_neg (c.enc_ne _), c.dec_enc]
      dsimp only
      rw [if_neg (SST.jsonStringify_ne v), SST.jsonParse_stringify]
    rw [hset]
    simp only [SST.getItem, SST.storeGet_set]
    rw [if_neg (c.enc_ne _), hdec]
  · intro e h1 h2 h3
    simp only [SST.getItem, h1]
    rw [if_neg h2, h3]

/-- C9 (witness): the round trip and the purge at a concrete cipher,
store, key and value. -/
theorem C9_round_trip_witness :
    SST.getItem SST.myCipher (SST.setItem SST.myCipher [] "maintenance" "hello") "maintenance"
      = (some "hello", SST.setItem SST.myCipher [] "maintenance" "hello") ∧
    SST.getItem SST.myCipher [("k", "X")] "k" = (none, SST.storeRemove [("k", "X")] "k") :=
  ⟨(C9_round_trip_and_purge SST.myCipher [] "maintenance" "hello").1,
   (C9_round_trip_and_purge SST.myCipher [("k", "X")] "k" "unused").2 "X" rfl
     (by decide) rfl⟩

/-- C10: the maintenance flag is rewritten on local connection events
with no inbound frame involved: the transport error handler sets it (and
its persisted record) to true whenever a socket exists, and a successful
open resets both to false. -/
theorem C10_maintenance_rewritten_locally (m : WSW.Mgr) :
    (m.sock ≠ none →
      (WSW.onError m).maint = true ∧ (WSW.onError m).persistMaint = some true) ∧
    (m.sock = some WSW.SockSt.connecting →
      (WSW.onOpen m).maint = false ∧ (WSW.onOpen m).persistMaint = some false) := by
  constructor
  · intro h
    unfold WSW.onError
    rw [if_pos h]
    exact ⟨rfl, rfl⟩
  · intro h
    simp only [WSW.onOpen, h]
    by_cases hu : WSW.userTruthy m.userId = true <;>
      simp [hu, WSW.sendRegistration_maint, WSW.sendRegistration_persistMaint]

/-- C10 (witness): the two local rewrites at a concrete state. -/
theorem C10_maintenance_witness :
    (WSW.onError { WSW.blankMgr true (some "u") with
      sock := some WSW.SockSt.opened }).maint = true ∧
    (WSW.onOpen { WSW.blankMgr true (some "u") with
      sock := some WSW.SockSt.connecting }).maint = false :=
  ⟨((C10_maintenance_rewritten_locally _).1 (by decide)).1,
   ((C10_maintenance_rewritten_locally _).2 (by decide)).1⟩
